import Mathlib

/-!
Shallow embedding of the psf crate core (src/lib.rs): the PSF font parser
`Font::parse_font_data` and the glyph accessors `Font::get_char`,
`Font::get_char_owned`, `Glyph::get`.

Byte buffers are `List Nat` (each element a byte value).  Rust operations
that can panic (slice indexing/slicing out of range, u8 overflow in debug,
a failing `assert!`) are modelled explicitly: results that can panic live
in `RunResult`, and `parse_font_data` returns a three-way `ParseResult`
(panicked / Err / Ok) mirroring `Result<Font, Error>` plus the panic
outcome.
-/

set_option maxRecDepth 100000

namespace Psf

/-- Outcome of a Rust computation that either panics or returns a value. -/
inductive RunResult (α : Type) where
  | panicked : RunResult α
  | ok : α → RunResult α
deriving DecidableEq, Repr

/-- Maps the returned value of a non-panicking run. -/
def RunResult.map {α β : Type} (f : α → β) : RunResult α → RunResult β
  | .panicked => .panicked
  | .ok a => .ok (f a)

/-- The crate's `Error` enum (src/lib.rs lines 82-92): four payload-free
variants; every parse failure uses `InvalidFontFormat`. -/
inductive Error where
  | Unknown
  | FileNotFound
  | FileIo
  | InvalidFontFormat
deriving DecidableEq, Repr

/-- The `Font` struct (src/lib.rs lines 28-35). -/
structure Font where
  raw_data : List Nat
  font_data_offset : Nat
  count : Nat
  width : Nat
  height : Nat
  byte_width : Nat
deriving DecidableEq, Repr

/-- The `GlyphData` enum (src/lib.rs lines 46-49): a glyph either borrows
a slice of the font's buffer or owns a copy of it. -/
inductive GlyphData where
  | ByCopy : List Nat → GlyphData
  | ByRef : List Nat → GlyphData
deriving DecidableEq, Repr

/-- The byte list held by either `GlyphData` variant. -/
def GlyphData.bytes : GlyphData → List Nat
  | .ByCopy d => d
  | .ByRef d => d

/-- The `Glyph` struct (src/lib.rs lines 39-44). -/
structure Glyph where
  d : GlyphData
  h : Nat
  w : Nat
  bw : Nat
deriving DecidableEq, Repr

/-- `Glyph::get` (src/lib.rs lines 57-68).  The bounds check uses strict
greater-than; past it, the source indexes the glyph slice with
`d[y * self.bw + x / 8]`, which panics when the index is out of range,
so that case is `RunResult.panicked`.  The extracted bit is
`(byte >> (7 - x % 8)) & 1 != 0`. -/
def Glyph.get (g : Glyph) (x y : Nat) : RunResult (Option Bool) :=
  if x > g.w ∨ y > g.h then
    .ok none
  else
    match (match g.d with
      | .ByCopy d => d.get? (y * g.bw + x / 8)
      | .ByRef d => d.get? (y * g.bw + x / 8)) with
    | none => .panicked
    | some bit => .ok (some (((bit >>> (7 - x % 8)) &&& 1) != 0))

/-- `Glyph::width` (src/lib.rs lines 71-73). -/
def Glyph.width (g : Glyph) : Nat := g.w

/-- `Glyph::height` (src/lib.rs lines 76-78). -/
def Glyph.height (g : Glyph) : Nat := g.h

/-- `Font::get_char` (src/lib.rs lines 152-166).  `c` is the argument
character's code point (`c as usize` in the source).  The source slices
`&self.raw_data[offset..offset + char_byte_length]`, which panics when the
end of the range exceeds the buffer length. -/
def Font.get_char (f : Font) (c : Nat) : RunResult (Option Glyph) :=
  if c > f.count then
    .ok none
  else
    let char_byte_length := f.height * f.byte_width
    let offset := f.font_data_offset + c * char_byte_length
    if offset + char_byte_length ≤ f.raw_data.length then
      .ok (some ⟨.ByRef ((f.raw_data.drop offset).take char_byte_length),
                 f.height, f.width, f.byte_width⟩)
    else
      .panicked

/-- `Font::get_char_owned` (src/lib.rs lines 171-185): identical to
`get_char` except the slice is copied (`.to_vec()`) into `ByCopy`. -/
def Font.get_char_owned (f : Font) (c : Nat) : RunResult (Option Glyph) :=
  if c > f.count then
    .ok none
  else
    let char_byte_length := f.height * f.byte_width
    let offset := f.font_data_offset + c * char_byte_length
    if offset + char_byte_length ≤ f.raw_data.length then
      .ok (some ⟨.ByCopy ((f.raw_data.drop offset).take char_byte_length),
                 f.height, f.width, f.byte_width⟩)
    else
      .panicked

/-- `as_le_u32` (src/lib.rs lines 281-286), linearised from the iterator
to the four bytes it consumes. -/
def as_le_u32 (b0 b1 b2 b3 : Nat) : Nat :=
  b0 ||| (b1 <<< 8) ||| (b2 <<< 16) ||| (b3 <<< 24)

/-- `as_le_u16` (src/lib.rs lines 288-290), linearised from the iterator
to the two bytes it consumes. -/
def as_le_u16 (b0 b1 : Nat) : Nat :=
  b0 ||| (b1 <<< 8)

/-- `get_data` (src/lib.rs lines 292-298), linearised from the iterator to
a start position into the buffer. -/
def get_data (data : List Nat) (start cnt : Nat) : List Nat :=
  (data.drop start).take cnt

/-- Result of `Font::parse_font_data`: `Result<Font, Error>` plus the
panic outcome (the debug-mode `u8` overflow of `width + 7`, which in
release mode becomes a failing `assert!(width <= byte_width * 8)`). -/
inductive ParseResult where
  | panicked : ParseResult
  | err : Error → ParseResult
  | ok : Font → ParseResult
deriving DecidableEq, Repr

/-- Failure causes of `parse_font_data`, one per `return Err` site of the
source.  The source collapses all of them to `Error::InvalidFontFormat`;
this instrumented cause records which site fired (for the offset-mismatch
site, together with the observed offset value available there). -/
inductive Cause where
  | emptyBuffer
  | unrecognizedFormat
  | undersizedV1
  | badMagicV1
  | invalidCountSelector
  | undersizedV2
  | badMagicV2
  | unsupportedVersion
  | offsetMismatch : Nat → Cause
  | oversizedGlyphTable
deriving DecidableEq, Repr

/-- Result of the instrumented parser: like `ParseResult` but failures
carry their `Cause`. -/
inductive ParseResultD where
  | panicked : ParseResultD
  | err : Cause → ParseResultD
  | ok : Font → ParseResultD
deriving DecidableEq, Repr

/-- `Font::parse_font_data` (src/lib.rs lines 201-278), with each of the
source's `return Err(Error::InvalidFontFormat)` sites labelled by its
`Cause` (erasing the causes with `ParseResultD.erase` below gives the
source's actual return value; see `Font.parse_font_data`).  The source
walks an iterator; here each read is linearised to its byte position.
The `match` on the first byte and on the variant-1 count selector are
written as equality tests on the same literals.  Bytes 12-15 (`_flags`)
and 20-23 (`_sizeof_char`) are consumed but unused.  After the header the
source computes `font_data_offset = raw_data.len() - data.as_slice().len()`,
which is exactly the number of bytes consumed (4 in mode 1, 32 in mode 2),
so the trailing `assert_eq!` always passes and the offset is written
directly.  In mode 2 the source computes `byte_width = (width + 7) / 8` in
`u8` arithmetic after truncating `width` to `u8`: for `width ≥ 249` the
addition overflows (debug panic), and with release wrapping `byte_width`
becomes 0 so `assert!(width <= byte_width * 8)` fails — a panic either
way, modelled as `ParseResultD.panicked`. -/
def parse_font_data_detailed (raw_data : List Nat) : ParseResultD :=
  if raw_data.length = 0 then .err .emptyBuffer
  else if raw_data.getD 0 0 = 0x36 then
    if raw_data.length < 4 then .err .undersizedV1
    else if raw_data.getD 1 0 ≠ 0x04 then .err .badMagicV1
    else
      let sel := raw_data.getD 2 0
      if sel = 0 then .ok ⟨raw_data, 4, 256, 8, raw_data.getD 3 0, 1⟩
      else if sel = 1 then .ok ⟨raw_data, 4, 512, 8, raw_data.getD 3 0, 1⟩
      else if sel = 2 then .ok ⟨raw_data, 4, 256, 8, raw_data.getD 3 0, 1⟩
      else if sel = 3 then .ok ⟨raw_data, 4, 512, 8, raw_data.getD 3 0, 1⟩
      else .err .invalidCountSelector
  else if raw_data.getD 0 0 = 0x72 then
    if raw_data.length < 32 then .err .undersizedV2
    else if raw_data.getD 1 0 ≠ 0xb5 ∨ raw_data.getD 2 0 ≠ 0x4a ∨
            raw_data.getD 3 0 ≠ 0x86 then .err .badMagicV2
    else if get_data raw_data 4 4 ≠ [0, 0, 0, 0] then .err .unsupportedVersion
    else
      let offset := as_le_u32 (raw_data.getD 8 0) (raw_data.getD 9 0)
        (raw_data.getD 10 0) (raw_data.getD 11 0)
      if offset ≠ 0x20 then .err (.offsetMismatch offset)
      else
        let count := raw_data.getD 16 0 + raw_data.getD 17 0 * 256
        let no_chars := as_le_u16 (raw_data.getD 18 0) (raw_data.getD 19 0)
        if no_chars > 64 * 1024 then .err .oversizedGlyphTable
        else
          let height := as_le_u32 (raw_data.getD 24 0) (raw_data.getD 25 0)
            (raw_data.getD 26 0) (raw_data.getD 27 0) % 256
          let width := as_le_u32 (raw_data.getD 28 0) (raw_data.getD 29 0)
            (raw_data.getD 30 0) (raw_data.getD 31 0) % 256
          if 256 ≤ width + 7 then .panicked
          else
            let byte_width := (width + 7) / 8
            .ok ⟨raw_data, 32, count, width, height, byte_width⟩
  else .err .unrecognizedFormat

/-- Erasing a detailed result to the source's error type: every failure
site of the source returns `Error::InvalidFontFormat`. -/
def ParseResultD.erase : ParseResultD → ParseResult
  | .panicked => .panicked
  | .err _ => .err .InvalidFontFormat
  | .ok f => .ok f

/-- `Font::parse_font_data` as the source's `Result<Font, Error>` (plus
panic): `parse_font_data_detailed` with the cause labels erased, since
the source returns the single `Error::InvalidFontFormat` at every failure
site. -/
def Font.parse_font_data (raw_data : List Nat) : ParseResult :=
  (parse_font_data_detailed raw_data).erase

/-- Minimal variant-1 buffer from the spec scenario: header
`[0x36, 0x04, 0x00, 0x01]` followed by 256 glyphs of one all-zero row. -/
def zeroFontData : List Nat := [0x36, 0x04, 0x00, 0x01] ++ List.replicate 256 0

/-- The font `parse_font_data` produces for `zeroFontData`. -/
def zeroFont : Font := ⟨zeroFontData, 4, 256, 8, 1, 1⟩

/-- Variant-1 buffer whose glyph 0 has the single row byte `0b10110000`. -/
def bitFontData : List Nat :=
  [0x36, 0x04, 0x00, 0x01, 0xb0] ++ List.replicate 255 0

/-- The font `parse_font_data` produces for `bitFontData`. -/
def bitFont : Font := ⟨bitFontData, 4, 256, 8, 1, 1⟩

/-- The glyph `bitFont.get_char 0` returns: one row, the byte `0b10110000`. -/
def bitGlyph : Glyph := ⟨.ByRef [0xb0], 1, 8, 1⟩

/-- A header-only variant-1 buffer: height 5 but no glyph data at all.
The parser accepts it. -/
def truncatedV1Data : List Nat := [0x36, 0x04, 0x00, 0x05]

/-- The font `parse_font_data` produces for `truncatedV1Data`. -/
def truncatedV1Font : Font := ⟨truncatedV1Data, 4, 256, 8, 5, 1⟩

/-- A 32-byte variant-2 buffer with correct magic, version 0, header
offset 0x20, glyph count 1, height 1 and width field 249. -/
def wideV2Data : List Nat :=
  [0x72, 0xb5, 0x4a, 0x86, 0, 0, 0, 0, 0x20, 0, 0, 0, 0, 0, 0, 0,
   1, 0, 0, 0, 0, 0, 0, 0, 1, 0, 0, 0, 0xf9, 0, 0, 0]

/-- A fully valid 32-byte variant-2 buffer: glyph count 1, height 1,
width 8 (the single glyph's data row lies beyond the header and is not
needed for parsing). -/
def validV2Data : List Nat :=
  [0x72, 0xb5, 0x4a, 0x86, 0, 0, 0, 0, 0x20, 0, 0, 0, 0, 0, 0, 0,
   1, 0, 0, 0, 1, 0, 0, 0, 1, 0, 0, 0, 8, 0, 0, 0]

/-- The glyph `get_char_owned` builds from the glyph `get_char` builds:
same dimensions, the data bytes copied into the owning variant
(the `.to_vec()` of src/lib.rs line 180). -/
def Glyph.toCopy (g : Glyph) : Glyph := ⟨.ByCopy g.d.bytes, g.h, g.w, g.bw⟩

/-- Composition of `get_char` and `Glyph::get`: the pixel of character
`cn` at `(x, y)`, `none` when `get_char` returns no glyph or panics. -/
def charPixel (f : Font) (cn x y : Nat) : Option (RunResult (Option Bool)) :=
  match f.get_char cn with
  | .ok (some g) => some (g.get x y)
  | _ => none


theorem parse_ok_iff (data : List Nat) (f : Font) :
    Font.parse_font_data data = .ok f ↔ parse_font_data_detailed data = .ok f := by
  unfold Font.parse_font_data
  rcases h : parse_font_data_detailed data with _ | c | g <;>
    simp [ParseResultD.erase]

theorem parse_panicked_iff (data : List Nat) :
    Font.parse_font_data data = .panicked ↔
      parse_font_data_detailed data = .panicked := by
  unfold Font.parse_font_data
  rcases h : parse_font_data_detailed data with _ | c | g <;>
    simp [ParseResultD.erase]

theorem getD_lt_256 (data : List Nat) (hb : ∀ b ∈ data, b < 256) (n : Nat) :
    data.getD n 0 < 256 := by
  rcases h : data.get? n with _ | b
  · simp [List.getD_eq_getElem?_getD, ← List.get?_eq_getElem?, h]
  · have hm : b ∈ data := List.get?_mem h
    have := hb b hm
    simp [List.getD_eq_getElem?_getD, ← List.get?_eq_getElem?, h]
    omega

theorem as_le_u16_lt (a b : Nat) (ha : a < 256) (hb : b < 256) :
    as_le_u16 a b < 65536 := by
  have h1 : a < 2 ^ 16 := by omega
  have h2 : b <<< 8 < 2 ^ 16 := by
    rw [Nat.shiftLeft_eq]
    omega
  have h3 : a ||| (b <<< 8) < 2 ^ 16 := Nat.bitwise_lt_two_pow h1 h2
  have h4 : (2 : Nat) ^ 16 = 65536 := by norm_num
  rw [h4] at h3
  simpa [as_le_u16] using h3

theorem glyph_get_rejected (g : Glyph) (x y : Nat) (hxy : g.w < x ∨ g.h < y) :
    g.get x y = .ok none := by
  unfold Glyph.get
  rw [if_pos hxy]

theorem glyph_get_at_some (g : Glyph) (x y b : Nat) (hx : x ≤ g.w) (hy : y ≤ g.h)
    (hb : (GlyphData.bytes g.d).get? (y * g.bw + x / 8) = some b) :
    g.get x y = .ok (some (((b >>> (7 - x % 8)) &&& 1) != 0)) := by
  have hcond : ¬(x > g.w ∨ y > g.h) := by push_neg; exact ⟨hx, hy⟩
  unfold Glyph.get
  rw [if_neg hcond]
  rcases hd : g.d with d | d <;>
    simp only [GlyphData.bytes, hd] at hb <;> dsimp only <;> rw [hb]

theorem glyph_get_at_none (g : Glyph) (x y : Nat) (hx : x ≤ g.w) (hy : y ≤ g.h)
    (hb : (GlyphData.bytes g.d).get? (y * g.bw + x / 8) = none) :
    g.get x y = .panicked := by
  have hcond : ¬(x > g.w ∨ y > g.h) := by push_neg; exact ⟨hx, hy⟩
  unfold Glyph.get
  rw [if_neg hcond]
  rcases hd : g.d with d | d <;>
    simp only [GlyphData.bytes, hd] at hb <;> dsimp only <;> rw [hb]

theorem get?_eq_some_getD (l : List Nat) (n : Nat) (h : n < l.length) :
    l.get? n = some (l.getD n 0) := by
  simp [List.getD_eq_getElem?_getD, List.get?_eq_getElem?, List.getElem?_eq_getElem h]

theorem get_char_none (f : Font) (c : Nat) (h : f.count < c) :
    f.get_char c = .ok none ∧ f.get_char_owned c = .ok none := by
  unfold Font.get_char Font.get_char_owned
  constructor <;> rw [if_pos h]

theorem get_char_some (f : Font) (c : Nat) (h : c ≤ f.count)
    (hlen : f.font_data_offset + c * (f.height * f.byte_width) +
      f.height * f.byte_width ≤ f.raw_data.length) :
    f.get_char c = .ok (some ⟨.ByRef ((f.raw_data.drop
        (f.font_data_offset + c * (f.height * f.byte_width))).take
        (f.height * f.byte_width)), f.height, f.width, f.byte_width⟩) ∧
    f.get_char_owned c = .ok (some ⟨.ByCopy ((f.raw_data.drop
        (f.font_data_offset + c * (f.height * f.byte_width))).take
        (f.height * f.byte_width)), f.height, f.width, f.byte_width⟩) := by
  unfold Font.get_char Font.get_char_owned
  constructor <;>
  · rw [if_neg (by omega)]
    dsimp only
    rw [if_pos hlen]

theorem get_char_panic (f : Font) (c : Nat) (h : c ≤ f.count)
    (hlen : f.raw_data.length <
      f.font_data_offset + c * (f.height * f.byte_width) + f.height * f.byte_width) :
    f.get_char c = .panicked ∧ f.get_char_owned c = .panicked := by
  unfold Font.get_char Font.get_char_owned
  constructor <;>
  · rw [if_neg (by omega)]
    dsimp only
    rw [if_neg (by omega)]

theorem get_char_ok_inv (f : Font) (c : Nat) (g : Glyph)
    (hg : f.get_char c = .ok (some g)) :
    g = ⟨.ByRef ((f.raw_data.drop
        (f.font_data_offset + c * (f.height * f.byte_width))).take
        (f.height * f.byte_width)), f.height, f.width, f.byte_width⟩ ∧
    c ≤ f.count ∧
    f.font_data_offset + c * (f.height * f.byte_width) +
      f.height * f.byte_width ≤ f.raw_data.length := by
  simp only [Font.get_char] at hg
  split_ifs at hg with h1 h2
  · exact absurd hg (by simp)
  · injection hg with h
    injection h with h
    exact ⟨h.symm, by omega, h2⟩

set_option maxHeartbeats 1600000 in
theorem parse_ok_width_le (data : List Nat) (f : Font)
    (hf : parse_font_data_detailed data = .ok f) :
    f.width ≤ 8 * f.byte_width := by
  simp only [parse_font_data_detailed] at hf
  split_ifs at hf <;> cases hf <;> dsimp only <;> omega

theorem glyph_index_lt (w bw h x y : Nat) (hx : x < w) (hy : y < h)
    (hw : w ≤ 8 * bw) : y * bw + x / 8 < h * bw := by
  have h8 : x / 8 < bw := by omega
  have h1 : y + 1 ≤ h := hy
  calc y * bw + x / 8 < y * bw + bw := by omega
    _ = (y + 1) * bw := by ring
    _ ≤ h * bw := Nat.mul_le_mul_right bw h1

theorem length_pos_of_get?0 {data : List Nat} {v : Nat}
    (h : data.get? 0 = some v) : 0 < data.length := by
  cases data
  · simp at h
  · simp

theorem getD0_of_get?0 {data : List Nat} {v : Nat}
    (h : data.get? 0 = some v) : data.getD 0 0 = v := by
  simp [List.getD_eq_getElem?_getD, ← List.get?_eq_getElem?, h]

/-- C1 counterexample: `zeroFont` is the successfully parsed font of the
minimal variant-1 buffer with `glyph_count = 256`.  At character code 256
(which is `≥ glyph_count`) `get_char` does not return `None` as the claim
states: the code-point check uses strict `>`, so the lookup proceeds and
panics slicing one glyph past the end of the buffer. -/
theorem c1_counterexample :
    Font.parse_font_data zeroFontData = .ok zeroFont ∧
    zeroFont.count = 256 ∧
    zeroFont.get_char 256 ≠ .ok none ∧
    zeroFont.get_char 256 = .panicked ∧
    zeroFont.get_char_owned 256 = .panicked := by decide

/-- C1 (amended): for every font and character code, `get_char` and
`get_char_owned` return `None` exactly when the code is strictly greater
than `glyph_count`; for a code at most `glyph_count` the lookup proceeds,
returning `Some` of the glyph slice when the glyph's byte range lies
within the buffer and panicking otherwise. -/
theorem get_char_boundary (f : Font) (c : Nat) :
    (f.get_char c = .ok none ↔ f.count < c) ∧
    (f.get_char_owned c = .ok none ↔ f.count < c) ∧
    (c ≤ f.count →
      f.font_data_offset + c * (f.height * f.byte_width) +
          f.height * f.byte_width ≤ f.raw_data.length →
      f.get_char c = .ok (some ⟨.ByRef ((f.raw_data.drop
          (f.font_data_offset + c * (f.height * f.byte_width))).take
          (f.height * f.byte_width)), f.height, f.width, f.byte_width⟩) ∧
      f.get_char_owned c = .ok (some ⟨.ByCopy ((f.raw_data.drop
          (f.font_data_offset + c * (f.height * f.byte_width))).take
          (f.height * f.byte_width)), f.height, f.width, f.byte_width⟩)) ∧
    (c ≤ f.count →
      f.raw_data.length < f.font_data_offset + c * (f.height * f.byte_width) +
          f.height * f.byte_width →
      f.get_char c = .panicked ∧ f.get_char_owned c = .panicked) := by
  have key : ∀ r : RunResult (Option Glyph),
      (∀ hc : c ≤ f.count, r ≠ .ok none) → (f.count < c → r = .ok none) →
      (r = .ok none ↔ f.count < c) := by
    intro r h1 h2
    constructor
    · intro h
      by_contra hc
      push_neg at hc
      exact h1 hc h
    · exact h2
  refine ⟨?_, ?_,
    fun h1 h2 => get_char_some f c h1 h2,
    fun h1 h2 => get_char_panic f c h1 h2⟩
  · refine key _ (fun hc h => ?_) (fun h => (get_char_none f c h).1)
    rcases le_or_lt (f.font_data_offset + c * (f.height * f.byte_width) +
        f.height * f.byte_width) f.raw_data.length with hlen | hlen
    · rw [(get_char_some f c hc hlen).1] at h
      simp at h
    · rw [(get_char_panic f c hc hlen).1] at h
      cases h
  · refine key _ (fun hc h => ?_) (fun h => (get_char_none f c h).2)
    rcases le_or_lt (f.font_data_offset + c * (f.height * f.byte_width) +
        f.height * f.byte_width) f.raw_data.length with hlen | hlen
    · rw [(get_char_some f c hc hlen).2] at h
      simp at h
    · rw [(get_char_panic f c hc hlen).2] at h
      cases h

/-- C1 witness: the amended boundary theorem applied to `zeroFont` at
code 0: the glyph range fits, so `get_char` returns the glyph slice. -/
theorem get_char_boundary_witness :
    zeroFont.get_char 0 = .ok (some ⟨.ByRef ((zeroFont.raw_data.drop
        (zeroFont.font_data_offset + 0 * (zeroFont.height * zeroFont.byte_width))).take
        (zeroFont.height * zeroFont.byte_width)),
        zeroFont.height, zeroFont.width, zeroFont.byte_width⟩) :=
  ((get_char_boundary zeroFont 0).2.2.1 (by decide) (by decide)).1

/-- C2 counterexample: `bitGlyph` is the glyph view `bitFont.get_char 0`
returns, with height 1.  At `y = height` (and `x = 0`, in range) the query
is accepted by the strict boundary check but panics on the out-of-range
byte index `1` into the single-byte glyph data — it does not return
`Some` of anything. -/
theorem c2_counterexample :
    Font.parse_font_data bitFontData = .ok bitFont ∧
    bitFont.get_char 0 = .ok (some bitGlyph) ∧
    bitGlyph.h = 1 ∧ 0 < bitGlyph.w ∧
    bitGlyph.get 0 1 = .panicked := by decide

/-- C2 (amended): `get` returns `None` exactly when `x > width` or
`y > height`.  An accepted query (`x ≤ width` and `y ≤ height`) reads byte
index `y * row_byte_width + x / 8`: when that index is inside the glyph
data it returns `Some` of bit `7 - x % 8` of that byte (for `x = width`
this reads past the nominal edge), and when the index is past the data —
always the case for `y = height` on a view of exactly
`height * row_byte_width` bytes — it panics instead of returning `Some`. -/
theorem glyph_get_boundary (g : Glyph) (x y : Nat) :
    (g.get x y = .ok none ↔ g.w < x ∨ g.h < y) ∧
    (x ≤ g.w → y ≤ g.h →
      (y * g.bw + x / 8 < (GlyphData.bytes g.d).length →
        g.get x y = .ok (some ((((GlyphData.bytes g.d).getD
          (y * g.bw + x / 8) 0 >>> (7 - x % 8)) &&& 1) != 0))) ∧
      ((GlyphData.bytes g.d).length ≤ y * g.bw + x / 8 →
        g.get x y = .panicked)) := by
  constructor
  · constructor
    · intro hres
      by_contra hc
      push_neg at hc
      obtain ⟨hx, hy⟩ := hc
      rcases hget : (GlyphData.bytes g.d).get? (y * g.bw + x / 8) with _ | b
      · rw [glyph_get_at_none g x y hx hy hget] at hres
        cases hres
      · rw [glyph_get_at_some g x y b hx hy hget] at hres
        simp at hres
    · exact fun h => glyph_get_rejected g x y h
  · intro hx hy
    constructor
    · intro hidx
      exact glyph_get_at_some g x y _ hx hy (get?_eq_some_getD _ _ hidx)
    · intro hidx
      refine glyph_get_at_none g x y hx hy ?_
      rw [List.get?_eq_getElem?]
      exact List.getElem?_eq_none hidx

/-- C2 witness: the amended theorem at `bitGlyph` with `x = 8 = width`,
`y = 0`: accepted, and the byte index 1 is past the single data byte, so
the query panics. -/
theorem glyph_get_boundary_witness :
    bitGlyph.get 8 0 = .panicked :=
  ((glyph_get_boundary bitGlyph 8 0).2 (by decide) (by decide)).2 (by decide)

/-- C3 counterexample: the parser accepts the four-byte buffer
`[0x36, 0x04, 0x00, 0x05]` (variant 1, height 5) even though it contains
no glyph data at all, and then `get_char` at the perfectly ordinary code 0
panics slicing `[4..9]` out of the 4-byte buffer — a post-construction
failure that is not an `Option`. -/
theorem c3_counterexample :
    Font.parse_font_data truncatedV1Data = .ok truncatedV1Font ∧
    0 < truncatedV1Font.count ∧
    truncatedV1Font.get_char 0 = .panicked ∧
    truncatedV1Font.get_char_owned 0 = .panicked := by decide

/-- C3 (amended): post-construction operations return a value or `None`
only as long as their byte accesses stay inside the buffers: `get_char`
and `get_char_owned` return `None` above `count` and `Some` when the
requested glyph's byte range lies within the raw buffer, and `Glyph::get`
returns `None` outside the boundary check and `Some` when the computed
byte index lies within the glyph data; outside those ranges (which a
successful parse does not guarantee) the operations panic. -/
theorem ops_no_panic_within_bounds (f : Font) (c x y : Nat) (g : Glyph) :
    (f.count < c → f.get_char c = .ok none ∧ f.get_char_owned c = .ok none) ∧
    (c ≤ f.count →
      f.font_data_offset + c * (f.height * f.byte_width) +
          f.height * f.byte_width ≤ f.raw_data.length →
      (∃ g2, f.get_char c = .ok (some g2)) ∧
        ∃ g2, f.get_char_owned c = .ok (some g2)) ∧
    (g.w < x ∨ g.h < y → g.get x y = .ok none) ∧
    (x ≤ g.w → y ≤ g.h → y * g.bw + x / 8 < (GlyphData.bytes g.d).length →
      ∃ b, g.get x y = .ok (some b)) :=
  ⟨fun h => get_char_none f c h,
   fun h1 h2 => ⟨⟨_, (get_char_some f c h1 h2).1⟩, ⟨_, (get_char_some f c h1 h2).2⟩⟩,
   fun h => glyph_get_rejected g x y h,
   fun hx hy hidx => ⟨_, glyph_get_at_some g x y _ hx hy (get?_eq_some_getD _ _ hidx)⟩⟩

/-- C3 witness: the amended theorem at `zeroFont`, code 0, and `bitGlyph`
at the in-range pixel (0, 0). -/
theorem ops_no_panic_within_bounds_witness :
    (∃ g2, zeroFont.get_char 0 = .ok (some g2)) ∧
    ∃ b, bitGlyph.get 0 0 = .ok (some b) :=
  ⟨((ops_no_panic_within_bounds zeroFont 0 0 0 bitGlyph).2.1
      (by decide) (by decide)).1,
   (ops_no_panic_within_bounds zeroFont 0 0 0 bitGlyph).2.2.2
      (by decide) (by decide) (by decide)⟩

/-- C7 counterexample: the empty buffer and the buffer `[0x10]` fail for
different causes (empty buffer vs unrecognised discriminator), yet
`parse_font_data` returns the identical payload-free error value
`Error::InvalidFontFormat` for both — failure causes are not
distinguished and no observed offset is carried. -/
theorem c7_counterexample :
    parse_font_data_detailed [] = .err .emptyBuffer ∧
    parse_font_data_detailed [0x10] = .err .unrecognizedFormat ∧
    Font.parse_font_data [] = .err .InvalidFontFormat ∧
    Font.parse_font_data [0x10] = .err .InvalidFontFormat ∧
    Font.parse_font_data [] = Font.parse_font_data [0x10] := by decide

/-- C7 (amended): every parse failure, whatever its cause, is reported as
the single payload-free error `Error::InvalidFontFormat`: any run of
`parse_font_data` either panics, succeeds, or returns exactly that one
error value. -/
theorem parse_err_unique (data : List Nat) :
    Font.parse_font_data data = .panicked ∨
    (∃ f, Font.parse_font_data data = .ok f) ∨
    Font.parse_font_data data = .err .InvalidFontFormat := by
  unfold Font.parse_font_data
  rcases h : parse_font_data_detailed data with _ | c | g <;>
    simp [ParseResultD.erase]

/-- C9: `get_char_owned` agrees with `get_char` for every font and code:
its result is exactly the `get_char` result with the glyph's data bytes
copied into the owning variant, and a copied glyph has the same width,
height and `get` results at every coordinate — the borrow/copy choice has
no semantic difference. -/
theorem get_char_owned_agrees (f : Font) (c : Nat) :
    f.get_char_owned c = (f.get_char c).map (Option.map Glyph.toCopy) ∧
    ∀ g : Glyph, (Glyph.toCopy g).width = g.width ∧
      (Glyph.toCopy g).height = g.height ∧
      ∀ x y : Nat, (Glyph.toCopy g).get x y = g.get x y := by
  constructor
  · unfold Font.get_char Font.get_char_owned
    by_cases h1 : c > f.count
    · simp [h1, RunResult.map]
    · by_cases h2 : f.font_data_offset + c * (f.height * f.byte_width) +
          f.height * f.byte_width ≤ f.raw_data.length
      · simp [h1, h2, RunResult.map, Glyph.toCopy, GlyphData.bytes]
      · simp [h1, h2, RunResult.map]
  · intro g
    refine ⟨rfl, rfl, fun x y => ?_⟩
    rcases hd : g.d with d | d <;>
      simp [Glyph.toCopy, Glyph.get, GlyphData.bytes, hd]

set_option maxHeartbeats 1600000 in
/-- C10: the declared glyph-count-in-bytes-table field (header bytes
18-19, read little-endian by `as_le_u16`) would make the parse fail at
the oversized-table check exactly when it exceeds 65536 = 64·1024; since
the field is two bytes its value never exceeds 65535, so for every byte
buffer the value is at most 65536 and parsing always proceeds past this
check. -/
theorem no_chars_check_vacuous (data : List Nat)
    (hb : ∀ b ∈ data, b < 256) :
    (parse_font_data_detailed data = .err .oversizedGlyphTable ↔
      64 * 1024 < as_le_u16 (data.getD 18 0) (data.getD 19 0)) ∧
    as_le_u16 (data.getD 18 0) (data.getD 19 0) ≤ 64 * 1024 := by
  have h18 := getD_lt_256 data hb 18
  have h19 := getD_lt_256 data hb 19
  have hlt : as_le_u16 (data.getD 18 0) (data.getD 19 0) < 65536 :=
    as_le_u16_lt _ _ h18 h19
  refine ⟨⟨?_, fun h => absurd h (by omega)⟩, by omega⟩
  intro hres
  exfalso
  simp only [parse_font_data_detailed] at hres
  split_ifs at hres <;> simp_all <;> omega

/-- C10 witness: applied to the concrete `zeroFontData` buffer. -/
theorem no_chars_check_vacuous_witness :
    as_le_u16 (zeroFontData.getD 18 0) (zeroFontData.getD 19 0) ≤ 64 * 1024 :=
  (no_chars_check_vacuous zeroFontData (by decide)).2

/-- C4: for every buffer whose first byte is 0x36, parsing succeeds
exactly when the buffer has at least 4 bytes, byte 1 is 0x04, and the
count selector at byte 2 is one of 0, 1, 2, 3; on success the glyph count
is 256 for selectors 0 and 2 and 512 for selectors 1 and 3, the width is
8, the row byte width is 1, the height is byte 3, and the data offset
is 4. -/
theorem parse_variant1 (data : List Nat) (h0 : data.get? 0 = some 0x36) :
    ((∃ f, Font.parse_font_data data = .ok f) ↔
      4 ≤ data.length ∧ data.getD 1 0 = 0x04 ∧ data.getD 2 0 < 4) ∧
    ∀ f, Font.parse_font_data data = .ok f →
      ((data.getD 2 0 = 0 ∨ data.getD 2 0 = 2) → f.count = 256) ∧
      ((data.getD 2 0 = 1 ∨ data.getD 2 0 = 3) → f.count = 512) ∧
      f.width = 8 ∧ f.byte_width = 1 ∧ f.height = data.getD 3 0 ∧
      f.font_data_offset = 4 := by
  have hpos : 0 < data.length := length_pos_of_get?0 h0
  have hg0 : data.getD 0 0 = 0x36 := getD0_of_get?0 h0
  have hstep : parse_font_data_detailed data =
      (if data.length < 4 then ParseResultD.err .undersizedV1
       else if data.getD 1 0 ≠ 0x04 then ParseResultD.err .badMagicV1
       else if data.getD 2 0 = 0 then .ok ⟨data, 4, 256, 8, data.getD 3 0, 1⟩
       else if data.getD 2 0 = 1 then .ok ⟨data, 4, 512, 8, data.getD 3 0, 1⟩
       else if data.getD 2 0 = 2 then .ok ⟨data, 4, 256, 8, data.getD 3 0, 1⟩
       else if data.getD 2 0 = 3 then .ok ⟨data, 4, 512, 8, data.getD 3 0, 1⟩
       else ParseResultD.err .invalidCountSelector) := by
    simp only [parse_font_data_detailed, hg0]
    rw [if_neg (by omega)]
    simp only [if_true]
  constructor
  · constructor
    · rintro ⟨f, hf⟩
      rw [parse_ok_iff data f, hstep] at hf
      split_ifs at hf with h1 h2 h3 h4 h5 h6 <;> try cases hf
      all_goals exact ⟨by omega, by omega, by omega⟩
    · rintro ⟨h4, h1, h2⟩
      refine ⟨⟨data, 4, if data.getD 2 0 = 0 ∨ data.getD 2 0 = 2 then 256 else 512,
        8, data.getD 3 0, 1⟩, ?_⟩
      rw [parse_ok_iff, hstep]
      rw [if_neg (by omega), if_neg (by omega)]
      interval_cases h : data.getD 2 0 <;> simp
  · intro f hf
    rw [parse_ok_iff data f, hstep] at hf
    split_ifs at hf with h1 h2 h3 h4 h5 h6 <;> cases hf <;>
      first
        | exact ⟨fun _ => rfl, fun hs => by omega, rfl, rfl, rfl, rfl⟩
        | exact ⟨fun hs => by omega, fun _ => rfl, rfl, rfl, rfl, rfl⟩

/-- C4 witness: applied to the concrete `zeroFontData` buffer, whose
first byte is 0x36 and which satisfies the success conditions. -/
theorem parse_variant1_witness :
    ∃ f, Font.parse_font_data zeroFontData = .ok f :=
  (parse_variant1 zeroFontData (by decide)).1.mpr (by decide)

/-- C5 counterexample: `wideV2Data` is a 32-byte variant-2 buffer whose
magic, version and header-offset fields all match exactly, yet parsing
does not succeed: its width field is 249, so `(width + 7) / 8` overflows
`u8` (debug) or wraps and fails the `assert!` (release) — the parse
panics. -/
theorem c5_counterexample :
    32 ≤ wideV2Data.length ∧
    wideV2Data.getD 1 0 = 0xb5 ∧ wideV2Data.getD 2 0 = 0x4a ∧
    wideV2Data.getD 3 0 = 0x86 ∧
    get_data wideV2Data 4 4 = [0, 0, 0, 0] ∧
    as_le_u32 (wideV2Data.getD 8 0) (wideV2Data.getD 9 0)
      (wideV2Data.getD 10 0) (wideV2Data.getD 11 0) = 0x20 ∧
    Font.parse_font_data wideV2Data = .panicked := by decide

/-- C5 (amended): for every byte buffer whose first byte is 0x72, parsing
succeeds exactly when the buffer has at least 32 bytes, the magic bytes,
version field and little-endian header-offset field match, and
additionally the width field truncated to 8 bits is at most 248 (for a
truncated width of 249-255 the parser panics computing `(width + 7) / 8`
in `u8`).  On success the glyph count is `low + high * 256` of bytes
16-17, height and width are the little-endian 32-bit fields at bytes
24-27 and 28-31 truncated to 8 bits, the row byte width is
`(width + 7) / 8 = ceil(width / 8)`, and the data offset is 32. -/
theorem parse_variant2 (data : List Nat) (h0 : data.get? 0 = some 0x72)
    (hb : ∀ b ∈ data, b < 256) :
    ((∃ f, Font.parse_font_data data = .ok f) ↔
      32 ≤ data.length ∧
      data.getD 1 0 = 0xb5 ∧ data.getD 2 0 = 0x4a ∧ data.getD 3 0 = 0x86 ∧
      get_data data 4 4 = [0, 0, 0, 0] ∧
      as_le_u32 (data.getD 8 0) (data.getD 9 0) (data.getD 10 0)
        (data.getD 11 0) = 0x20 ∧
      as_le_u32 (data.getD 28 0) (data.getD 29 0) (data.getD 30 0)
        (data.getD 31 0) % 256 ≤ 248) ∧
    ∀ f, Font.parse_font_data data = .ok f →
      f.count = data.getD 16 0 + data.getD 17 0 * 256 ∧
      f.height = as_le_u32 (data.getD 24 0) (data.getD 25 0) (data.getD 26 0)
        (data.getD 27 0) % 256 ∧
      f.width = as_le_u32 (data.getD 28 0) (data.getD 29 0) (data.getD 30 0)
        (data.getD 31 0) % 256 ∧
      f.byte_width = (f.width + 7) / 8 ∧
      f.font_data_offset = 32 := by
  have hpos : 0 < data.length := length_pos_of_get?0 h0
  have hg0 : data.getD 0 0 = 0x72 := getD0_of_get?0 h0
  have hnc : as_le_u16 (data.getD 18 0) (data.getD 19 0) < 65536 :=
    as_le_u16_lt _ _ (getD_lt_256 data hb 18) (getD_lt_256 data hb 19)
  have hstep : parse_font_data_detailed data =
      (if data.length < 32 then ParseResultD.err .undersizedV2
       else if data.getD 1 0 ≠ 0xb5 ∨ data.getD 2 0 ≠ 0x4a ∨
           data.getD 3 0 ≠ 0x86 then
         ParseResultD.err .badMagicV2
       else if get_data data 4 4 ≠ [0, 0, 0, 0] then
         ParseResultD.err .unsupportedVersion
       else if as_le_u32 (data.getD 8 0) (data.getD 9 0) (data.getD 10 0)
           (data.getD 11 0) ≠ 0x20 then
         ParseResultD.err (.offsetMismatch (as_le_u32 (data.getD 8 0)
           (data.getD 9 0) (data.getD 10 0) (data.getD 11 0)))
       else if as_le_u16 (data.getD 18 0) (data.getD 19 0) > 64 * 1024 then
         ParseResultD.err .oversizedGlyphTable
       else if 256 ≤ as_le_u32 (data.getD 28 0) (data.getD 29 0)
           (data.getD 30 0) (data.getD 31 0) % 256 + 7 then
         ParseResultD.panicked
       else .ok ⟨data, 32, data.getD 16 0 + data.getD 17 0 * 256,
         as_le_u32 (data.getD 28 0) (data.getD 29 0) (data.getD 30 0)
           (data.getD 31 0) % 256,
         as_le_u32 (data.getD 24 0) (data.getD 25 0) (data.getD 26 0)
           (data.getD 27 0) % 256,
         (as_le_u32 (data.getD 28 0) (data.getD 29 0) (data.getD 30 0)
           (data.getD 31 0) % 256 + 7) / 8⟩) := by
    simp only [parse_font_data_detailed, hg0]
    rw [if_neg (by omega), if_neg (by decide)]
    simp only [if_true]
  constructor
  · constructor
    · rintro ⟨f, hf⟩
      rw [parse_ok_iff data f, hstep] at hf
      split_ifs at hf with h1 h2 h3 h4 h5 h6 <;> try cases hf
      push_neg at h2
      exact ⟨by omega, h2.1, h2.2.1, h2.2.2, not_not.mp h3,
        not_not.mp h4, by omega⟩
    · rintro ⟨hlen, hm1, hm2, hm3, hver, hoff, hw⟩
      refine ⟨⟨data, 32, data.getD 16 0 + data.getD 17 0 * 256,
        as_le_u32 (data.getD 28 0) (data.getD 29 0) (data.getD 30 0)
          (data.getD 31 0) % 256,
        as_le_u32 (data.getD 24 0) (data.getD 25 0) (data.getD 26 0)
          (data.getD 27 0) % 256,
        (as_le_u32 (data.getD 28 0) (data.getD 29 0) (data.getD 30 0)
          (data.getD 31 0) % 256 + 7) / 8⟩, ?_⟩
      rw [parse_ok_iff, hstep]
      rw [if_neg (by omega)]
      rw [if_neg (by push_neg; exact ⟨hm1, hm2, hm3⟩)]
      rw [if_neg (not_not_intro hver)]
      rw [if_neg (not_not_intro hoff)]
      rw [if_neg (by omega)]
      rw [if_neg (by omega)]
  · intro f hf
    rw [parse_ok_iff data f, hstep] at hf
    split_ifs at hf with h1 h2 h3 h4 h5 h6 <;> try cases hf
    exact ⟨rfl, rfl, rfl, rfl, rfl⟩

/-- C5 witness: applied to the concrete fully valid variant-2 buffer
`validV2Data`. -/
theorem parse_variant2_witness :
    ∃ f, Font.parse_font_data validV2Data = .ok f :=
  (parse_variant2 validV2Data (by decide) (by decide)).1.mpr (by decide)

/-- C6: for every glyph view obtained from a successfully parsed font and
every in-range coordinate pair (`x < width`, `y < height`), `get`
returns `Some` of the bit at byte index `y * row_byte_width + x / 8` of
the glyph's data, bit position `7 - x % 8` — rows are packed
most-significant-bit-first. -/
theorem glyph_get_msb_first (data : List Nat) (f : Font) (c x y : Nat)
    (g : Glyph)
    (hf : Font.parse_font_data data = .ok f)
    (hg : f.get_char c = .ok (some g))
    (hx : x < g.w) (hy : y < g.h) :
    g.get x y = .ok (some ((((GlyphData.bytes g.d).getD (y * g.bw + x / 8) 0
        >>> (7 - x % 8)) &&& 1) != 0)) := by
  have hw : f.width ≤ 8 * f.byte_width :=
    parse_ok_width_le data f ((parse_ok_iff data f).mp hf)
  obtain ⟨hgeq, hc, hlen⟩ := get_char_ok_inv f c g hg
  subst hgeq
  dsimp only [GlyphData.bytes] at hx hy ⊢
  refine glyph_get_at_some _ x y _ (le_of_lt hx) (le_of_lt hy) ?_
  apply get?_eq_some_getD
  dsimp only [GlyphData.bytes]
  have hslen : ((f.raw_data.drop
      (f.font_data_offset + c * (f.height * f.byte_width))).take
      (f.height * f.byte_width)).length = f.height * f.byte_width := by
    rw [List.length_take, List.length_drop]
    omega
  rw [hslen]
  exact glyph_index_lt f.width f.byte_width f.height x y hx hy hw

/-- C6 witness: the glyph of `bitFont` at code 0 has the single row byte
`0b10110000`; pixels 0, 2, 3 are set and pixels 1, 4 are clear, matching
most-significant-bit-first packing. -/
theorem glyph_get_msb_first_witness :
    bitGlyph.get 0 0 = .ok (some true) ∧ bitGlyph.get 1 0 = .ok (some false) ∧
    bitGlyph.get 2 0 = .ok (some true) ∧ bitGlyph.get 3 0 = .ok (some true) ∧
    bitGlyph.get 4 0 = .ok (some false) :=
  ⟨(glyph_get_msb_first bitFontData bitFont 0 0 0 bitGlyph (by decide)
      (by decide) (by decide) (by decide)).trans (by decide),
   (glyph_get_msb_first bitFontData bitFont 0 1 0 bitGlyph (by decide)
      (by decide) (by decide) (by decide)).trans (by decide),
   (glyph_get_msb_first bitFontData bitFont 0 2 0 bitGlyph (by decide)
      (by decide) (by decide) (by decide)).trans (by decide),
   (glyph_get_msb_first bitFontData bitFont 0 3 0 bitGlyph (by decide)
      (by decide) (by decide) (by decide)).trans (by decide),
   (glyph_get_msb_first bitFontData bitFont 0 4 0 bitGlyph (by decide)
      (by decide) (by decide) (by decide)).trans (by decide)⟩

/-- C8: the minimal variant-1 buffer `[0x36, 0x04, 0x00, 0x01]` followed
by 256 zero bytes parses successfully into a font with 256 glyphs of
width 8 and height 1, and every in-range pixel of every one of its 256
glyphs is `false`. -/
theorem zero_font_end_to_end :
    Font.parse_font_data zeroFontData = .ok zeroFont ∧
    zeroFont.count = 256 ∧ zeroFont.width = 8 ∧ zeroFont.height = 1 ∧
    ∀ cn < 256, ∀ x < 8, ∀ y < 1,
      charPixel zeroFont cn x y = some (.ok (some false)) :=
  ⟨by decide, by decide, by decide, by decide, by decide⟩

/-- C8 witness: the pixel query at code 65, x = 3, y = 0. -/
theorem zero_font_end_to_end_witness :
    charPixel zeroFont 65 3 0 = some (.ok (some false)) :=
  zero_font_end_to_end.2.2.2.2 65 (by decide) 3 (by decide) 0 (by decide)

end Psf
